import Mathlib

/-!
Verification of the FIFA wage-model dashboard (`src/App.js`).

The development embeds the two cooperating pieces of logic of the source:

* the linear predictor `predictedUSD` (App.js lines 63-73) together with the
  coefficient loader `useCoefficients` (lines 26-38) and the display
  formatter `fmtUSD` (lines 40-47);
* the declarative vega-lite transform pipeline built by `calcGroupExpr`
  (lines 76-82), `wageHistSpec` (lines 85-111) and `boxSpec` (lines 130-149).

JavaScript doubles are idealised as exact rationals, except that the single
non-finite-producing operation `Math.exp` is modelled over the reals, and the
JS `NaN` produced by coercing an unparseable estimate string with unary `+`
is modelled explicitly as the `none` case of `JSNum`.
-/

namespace FifaWage

/-! ### Coefficient store (`useCoefficients`, App.js lines 26-38) -/

/-- A JavaScript number as stored in the coefficient map: `none` models `NaN`
(the result of `+estimate` when the estimate string is unparseable), `some q`
models the ordinary finite value `q`. -/
def JSNum : Type := Option ℚ

instance : DecidableEq JSNum := by unfold JSNum; infer_instance

/-- One record of the external coefficient resource: `{ term, estimate }`,
with the estimate still in its raw string form. -/
structure CoefRecord where
  term : String
  estimate : String
deriving DecidableEq

/-- The in-memory coefficient map built by `useCoefficients`: an association
list from term name to the (possibly `NaN`) coerced estimate. -/
def CoefMap : Type := List (String × JSNum)

instance : DecidableEq CoefMap := by unfold CoefMap; infer_instance

/-- JS property read `m[k]`: `none` when the key is absent. -/
def lookupTerm : CoefMap → String → Option JSNum
  | [], _ => none
  | (t, v) :: rest, k => if t = k then some v else lookupTerm rest k

/-- JS property write `m[k] = v` on an association list (overwrites the
first existing binding of `k`, else appends). -/
def setTerm : CoefMap → String → JSNum → CoefMap
  | [], k, v => [(k, v)]
  | (t, w) :: rest, k, v =>
      if t = k then (k, v) :: rest else (t, w) :: setTerm rest k v

/-- The characters stripped by JS `ToNumber` before parsing: the ECMAScript
WhiteSpace set (TAB, VT, FF, SP, NBSP, ZWNBSP and the Unicode Zs spaces)
together with the LineTerminator set (LF, CR, LS, PS). -/
def jsWhitespace (c : Char) : Bool :=
  c = ' ' || c = '\t' || c = '\n' || c = '\r' ||
  c.toNat = 0xB || c.toNat = 0xC || c.toNat = 0xA0 || c.toNat = 0x1680 ||
  (0x2000 ≤ c.toNat && c.toNat ≤ 0x200A) ||
  c.toNat = 0x2028 || c.toNat = 0x2029 || c.toNat = 0x202F ||
  c.toNat = 0x205F || c.toNat = 0x3000 || c.toNat = 0xFEFF

/-- Strip leading and trailing JS whitespace. -/
def trimJS (cs : List Char) : List Char :=
  ((cs.dropWhile jsWhitespace).reverse.dropWhile jsWhitespace).reverse

/-- Value of a string of ASCII decimal digits, most significant first. -/
def digitsToNat (cs : List Char) : ℕ :=
  cs.foldl (fun acc c => 10 * acc + (c.toNat - 48)) 0

/-- Value of a single digit in bases up to 16, `none` for a non-digit. -/
def hexDigitVal (c : Char) : Option ℕ :=
  if '0' ≤ c && c ≤ '9' then some (c.toNat - 48)
  else if 'a' ≤ c && c ≤ 'f' then some (c.toNat - 87)
  else if 'A' ≤ c && c ≤ 'F' then some (c.toNat - 55)
  else none

/-- Value of a nonempty digit string in the given base, `none` when the
string is empty or some character is not a digit of that base. -/
def parseRadixDigits (base : ℕ) : List Char → Option ℕ
  | [] => none
  | cs =>
      cs.foldl
        (fun acc c =>
          acc.bind (fun n => (hexDigitVal c).bind (fun d =>
            if d < base then some (base * n + d) else none)))
        (some 0)

/-- The result of JS `ToNumber` on a string: `NaN`, one of the two
infinities, or a finite value. -/
inductive ToNumberResult
  | nan
  | posInf
  | negInf
  | finite (q : ℚ)
deriving DecidableEq

/-- The optional ExponentPart at the end of a decimal literal: an empty
remainder means exponent `0`; otherwise the whole remainder must be `e`/`E`,
an optional sign and a nonempty digit string. -/
def parseExponent : List Char → Option ℤ
  | [] => some 0
  | e :: rest =>
      if e = 'e' || e = 'E' then
        match rest with
        | '+' :: ds =>
            if !ds.isEmpty && ds.all Char.isDigit
            then some (digitsToNat ds) else none
        | '-' :: ds =>
            if !ds.isEmpty && ds.all Char.isDigit
            then some (-(digitsToNat ds : ℤ)) else none
        | ds =>
            if !ds.isEmpty && ds.all Char.isDigit
            then some (digitsToNat ds) else none
      else none

/-- A StrUnsignedDecimalLiteral other than `Infinity`: decimal digits, an
optional fraction and an optional exponent, with at least one digit before
the exponent; `none` when the characters are not such a literal. -/
def parseDecimalCore (cs : List Char) : Option ℚ :=
  match cs.span Char.isDigit with
  | (intD, rest1) =>
      match
        (match rest1 with
          | '.' :: t => t.span Char.isDigit
          | _ => ([], rest1)) with
      | (fracD, rest2) =>
          if intD.isEmpty && fracD.isEmpty then none
          else
            (parseExponent rest2).map (fun e =>
              ((digitsToNat intD : ℚ)
                  + (digitsToNat fracD : ℚ) / 10 ^ fracD.length)
                * (if 0 ≤ e then (10 : ℚ) ^ e.toNat else 1 / 10 ^ (-e).toNat))

/-- A binary, octal or hexadecimal integer literal body: its value when
every character is a digit of the base, else `NaN`. -/
def radixResult (base : ℕ) (rest : List Char) : ToNumberResult :=
  match parseRadixDigits base rest with
  | some n => .finite n
  | none => .nan

/-- A StrDecimalLiteral after its optional sign: the `Infinity` literal or
a decimal literal, negated when the sign was `-`; anything else is `NaN`. -/
def signedDecimal (neg : Bool) (cs : List Char) : ToNumberResult :=
  if cs = ['I', 'n', 'f', 'i', 'n', 'i', 't', 'y'] then
    if neg then .negInf else .posInf
  else
    match parseDecimalCore cs with
    | some q => .finite (if neg then -q else q)
    | none => .nan

/-- JS `ToNumber` on a string: trim whitespace; empty means `0`; a `0b`,
`0o` or `0x` prefix starts an unsigned radix integer literal; otherwise an
optionally signed decimal literal or the `Infinity` literal; everything
else is `NaN`. -/
def jsStrToNumber (s : String) : ToNumberResult :=
  match trimJS s.toList with
  | [] => .finite 0
  | '0' :: 'x' :: rest => radixResult 16 rest
  | '0' :: 'X' :: rest => radixResult 16 rest
  | '0' :: 'o' :: rest => radixResult 8 rest
  | '0' :: 'O' :: rest => radixResult 8 rest
  | '0' :: 'b' :: rest => radixResult 2 rest
  | '0' :: 'B' :: rest => radixResult 2 rest
  | '+' :: rest => signedDecimal false rest
  | '-' :: rest => signedDecimal true rest
  | cs => signedDecimal false cs

/-- JavaScript unary plus on a string (`+d.estimate`, App.js line 33), as
stored into the coefficient map.  `JSNum` represents finite values and
`NaN` only, so the two infinite results of `ToNumber` (the estimate strings
`"Infinity"`/`"-Infinity"`) are collapsed onto the non-finite marker
`none` as well; this is the one disclosed deviation of the map model, and
every theorem that quantifies over estimate strings therefore states its
hypothesis through `jsStrToNumber`, whose codomain keeps the infinities
distinct from `NaN`. -/
def jsToNumber (s : String) : JSNum :=
  match jsStrToNumber s with
  | .finite q => some q
  | .nan => none
  | .posInf => none
  | .negInf => none

/-- The loader body of `useCoefficients` (App.js lines 31-34): starting from
the empty object, store `+d.estimate` under `d.term` for each record, in
order.  The load is total: it never rejects a record, it silently stores
`NaN` for an unparseable estimate. -/
def loadCoefficients (records : List CoefRecord) : CoefMap :=
  records.foldl (fun m d => setTerm m d.term (jsToNumber d.estimate)) []

/-! ### Linear predictor (`predictedUSD`, App.js lines 63-73) -/

/-- The JS guard `coefs[k] || 0`: an absent key gives `0`, and a stored `NaN`
is falsy so it also gives `0`; a finite stored value is returned as is
(`0 || 0` is `0`, so collapsing the falsy `0` case is exact). -/
def orZero : Option JSNum → ℚ
  | some (some v) => v
  | some none => 0
  | none => 0

/-- `coefs[k] || 0` as a single map read. -/
def coefValue (coefs : CoefMap) (k : String) : ℚ :=
  orZero (lookupTerm coefs k)

/-- The predictor's feature vector: the four inputs of the "predict a wage"
card.  `age` and `rating` are the numeric values of the two number inputs
(`Number(age)`, `Number(rating)`), `pg` and `foot` the selected strings. -/
structure Features where
  age : ℚ
  rating : ℚ
  pg : String
  foot : String

/-- The two process-wide configuration knobs `TARGET_IS_LOG` (App.js line
11) and `USD_PER_EUR` (line 13), abstracted as in the spec's `config`. -/
structure Config where
  targetIsLog : Bool
  currencyRate : ℚ

/-- The linear predictor η of App.js lines 64-69: sequential `eta += ...`
starting from `0`, each term read through the `|| 0` guard. -/
def etaOf (coefs : CoefMap) (f : Features) : ℚ :=
  0 + coefValue coefs "Intercept"
    + coefValue coefs "age" * f.age
    + coefValue coefs "overall_rating" * f.rating
    + coefValue coefs ("position_group_" ++ f.pg)
    + coefValue coefs ("preferred_foot_" ++ f.foot)

/-- App.js line 71: `TARGET_IS_LOG ? Math.exp(eta) : eta`, the wage in EUR. -/
noncomputable def wageEurOf (coefs : CoefMap) (f : Features) (cfg : Config) : ℝ :=
  if cfg.targetIsLog then Real.exp (etaOf coefs f) else (etaOf coefs f : ℝ)

/-- App.js line 72: the predicted wage in USD, `wageEur * USD_PER_EUR`. -/
noncomputable def predict (coefs : CoefMap) (f : Features) (cfg : Config) : ℝ :=
  wageEurOf coefs f cfg * (cfg.currencyRate : ℝ)

/-! ### Category deriver (`calcGroupExpr`, App.js lines 76-82) -/

/-- The four coarse position groups of the data model. -/
inductive DerivedGroup
  | Goalkeeper
  | Defender
  | Midfielder
  | Forward
deriving DecidableEq

/-- `takesLead pat cs`: `pat` occurs at the very start of `cs`. -/
def takesLead : List Char → List Char → Bool
  | [], _ => true
  | _ :: _, [] => false
  | a :: as, b :: bs => a = b && takesLead as bs

/-- `containsAux hay pat`: `pat` occurs contiguously somewhere in `hay`. -/
def containsAux : List Char → List Char → Bool
  | hay, pat =>
      takesLead pat hay ||
        match hay with
        | [] => false
        | _ :: t => containsAux t pat

/-- Substring test on raw text, the embedding of the vega expression
`indexof(datum.positions, pat) >= 0`: case-sensitive containment. -/
def containsStr (s pat : String) : Bool :=
  containsAux s.toList pat.toList

/-- The ordered first-match rules of `calcGroupExpr` (App.js lines 76-82):
GK, then the defender codes, then the midfielder codes, else Forward. -/
def deriveGroup (positions : String) : DerivedGroup :=
  if containsStr positions "GK" then .Goalkeeper
  else if containsStr positions "CB" || containsStr positions "LB"
      || containsStr positions "RB" || containsStr positions "RWB"
      || containsStr positions "LWB" then .Defender
  else if containsStr positions "CM" || containsStr positions "CDM"
      || containsStr positions "CAM" || containsStr positions "RM"
      || containsStr positions "LM" || containsStr positions "RW"
      || containsStr positions "LW" then .Midfielder
  else .Forward

/-- The string the vega expression actually stores in `datum.group`. -/
def groupName : DerivedGroup → String
  | .Goalkeeper => "Goalkeeper"
  | .Defender => "Defender"
  | .Midfielder => "Midfielder"
  | .Forward => "Forward"

/-! ### Transform pipeline (`wageHistSpec` lines 85-111, `boxSpec` lines
130-149)

The source emits declarative vega-lite transform arrays; the stage
interpreter below gives them the semantics stated in the spec (derive →
rescale → filter → aggregate, each stage a pure per-record map or filter).
-/

/-- A dataset row as seen by the vega transforms: the two consumed columns
of the CSV plus the two derived columns (`group`, `wage_usd`), which start
out absent (modelled by the defaults `""` and `0`). -/
structure Row where
  positions : String
  wage_euro : ℚ
  group : String := ""
  wage_usd : ℚ := 0
deriving DecidableEq

/-- A row of the raw dataset, before any derived column exists. -/
def initRow (positions : String) (wage_euro : ℚ) : Row :=
  { positions := positions, wage_euro := wage_euro }

/-- The three transform stages appearing in the two specs:
`{calculate: calcGroupExpr, as: "group"}`,
`{calculate: rate * datum.wage_euro, as: "wage_usd"}`, and
`{filter: filterExpr}`. -/
inductive TransformStage
  | deriveStage
  | rescaleStage (rate : ℚ)
  | filterStage (posFilter : String)
deriving DecidableEq

/-- The filter expression of App.js lines 86-87: `"true"` when the selected
filter is the sentinel `"All"`, else `datum.group == posFilter`. -/
def keepRow (posFilter : String) (r : Row) : Bool :=
  if posFilter = "All" then true else r.group = posFilter

/-- Modelled from the spec: the vega-lite transform runner (external to the
repository) applies a `calculate` stage as a pure per-record map attaching
the computed column, and a `filter` stage as a predicate filter. -/
def runStage : TransformStage → List Row → List Row
  | .deriveStage, rows =>
      rows.map (fun r => { r with group := groupName (deriveGroup r.positions) })
  | .rescaleStage rate, rows =>
      rows.map (fun r => { r with wage_usd := rate * r.wage_euro })
  | .filterStage posFilter, rows => rows.filter (keepRow posFilter)

/-- Run a transform array left to right, each stage feeding the next. -/
def runTransform (stages : List TransformStage) (rows : List Row) : List Row :=
  stages.foldl (fun acc s => runStage s acc) rows

/-- The constant `USD_PER_EUR` of App.js line 13. -/
def usdPerEur : ℚ := 108 / 100

/-- The transform array of `wageHistSpec` (App.js lines 91-95): derive the
group, rescale the wage, then filter by the selected position group. -/
def wageHistTransform (posFilter : String) : List TransformStage :=
  [.deriveStage, .rescaleStage usdPerEur, .filterStage posFilter]

/-- The transform array of `boxSpec` (App.js lines 133-136): derive the
group and rescale the wage; there is no filter stage, whatever the selected
filter is.  The `posFilter` argument records that the spec is built in a
scope where the selected filter is available; the built array never uses
it. -/
def boxTransform (posFilter : String) : List TransformStage :=
  [.deriveStage, .rescaleStage usdPerEur]

/-! ### Histogram aggregation (`bin: {maxbins: 30}`, App.js line 101) -/

/-- Least element of a nonempty list of rationals (`0` for `[]`). -/
def listMin : List ℚ → ℚ
  | [] => 0
  | x :: t => t.foldl min x

/-- Greatest element of a nonempty list of rationals (`0` for `[]`). -/
def listMax : List ℚ → ℚ
  | [] => 0
  | x :: t => t.foldl max x

/-- Modelled from the spec: equal-width binning over the observed range —
the bin index of `x` among `n` bins spanning `[lo, hi]`, clamped into
`0..n-1` (a degenerate range puts everything in bin `0`). -/
def binIdx (lo hi : ℚ) (n : ℕ) (x : ℚ) : ℕ :=
  if hi ≤ lo then 0
  else min (n - 1) (Int.toNat ⌊(x - lo) * n / (hi - lo)⌋)

/-- Modelled from the spec: the histogram aggregate — bin the observed
values into `n` equal-width bins over their observed min/max and count the
records per bin; an empty input yields an empty series. -/
def histogram (n : ℕ) (xs : List ℚ) : List (ℕ × ℕ) :=
  match xs with
  | [] => []
  | _ =>
      let lo := listMin xs
      let hi := listMax xs
      (List.range n).map
        (fun i => (i, (xs.filter (fun x => binIdx lo hi n x == i)).length))

/-- The histogram ChartSeries of `wageHistSpec`: run the transform array on
the raw rows, then bin the `wage_usd` column with the spec's bin count. -/
def wageHistSeries (posFilter : String) (rows : List Row) : List (ℕ × ℕ) :=
  histogram 30 ((runTransform (wageHistTransform posFilter) rows).map (·.wage_usd))

/-! ### Box-summary aggregation (`mark: boxplot, extent: min-max`, App.js
line 137) -/

/-- Sorted copy of a list of rationals. -/
def sortedVals (xs : List ℚ) : List ℚ :=
  xs.mergeSort (· ≤ ·)

/-- Modelled from the spec: an order statistic of a sorted list by
nearest-rank position `num/den` of the way through. -/
def quantileAt (sorted : List ℚ) (num den : ℕ) : ℚ :=
  sorted.getD ((sorted.length - 1) * num / den) 0

/-- Modelled from the spec: the box-summary aggregate — group rows by their
`group` column (in first-appearance order) and report min, Q1, median, Q3
and max of `wage_usd` for each group. -/
def boxAggregate (rows : List Row) : List (String × ℚ × ℚ × ℚ × ℚ × ℚ) :=
  ((rows.map (·.group)).dedup).map (fun g =>
    let vs := sortedVals ((rows.filter (fun r => r.group == g)).map (·.wage_usd))
    (g, listMin vs, quantileAt vs 1 4, quantileAt vs 2 4, quantileAt vs 3 4,
      listMax vs))

/-- The box-summary ChartSeries of `boxSpec`: run its transform array, then
aggregate per group. -/
def boxSeries (posFilter : String) (rows : List Row) :
    List (String × ℚ × ℚ × ℚ × ℚ × ℚ) :=
  boxAggregate (runTransform (boxTransform posFilter) rows)

/-! ### Display formatter (`fmtUSD`, App.js lines 40-47) -/

/-- A JavaScript double as seen by the display layer: a finite value or one
of the three non-finite values. -/
inductive JSFloat
  | finite (q : ℚ)
  | posInf
  | negInf
  | nan
deriving DecidableEq

/-- The JS `isFinite` predicate. -/
def isFiniteJS : JSFloat → Bool
  | .finite _ => true
  | _ => false

/-- Rounding half away from zero, the `Intl` default (`halfExpand`) used by
`toLocaleString` with `maximumFractionDigits: 0`. -/
def roundHalfExpand (q : ℚ) : ℤ :=
  if 0 ≤ q then ⌊q + 1/2⌋ else -⌊-q + 1/2⌋

/-- Insert a thousands separator every three digits, working on the
reversed digit list. -/
def groupRev : List Char → List Char
  | c1 :: c2 :: c3 :: c4 :: rest => c1 :: c2 :: c3 :: ',' :: groupRev (c4 :: rest)
  | l => l

/-- Decimal digits of a natural number, most significant first. -/
def natDigits (n : ℕ) : List Char :=
  (Nat.toDigits 10 n)

/-- The en-US currency formatting of `x.toLocaleString("en-US", {style:
"currency", currency: "USD", maximumFractionDigits: 0})` on a finite value:
a dollar sign (after the minus sign when negative) followed by the rounded
magnitude with thousands separators. -/
def toLocaleUSD (q : ℚ) : String :=
  (if roundHalfExpand q < 0 then "-$" else "$") ++
    String.mk ((groupRev (natDigits (roundHalfExpand q).natAbs).reverse).reverse)

/-- `fmtUSD` (App.js lines 40-47): a non-finite value displays as the
unavailable marker `"—"`; a finite value is currency-formatted. -/
def fmtUSD : JSFloat → String
  | .finite q => toLocaleUSD q
  | _ => "—"

/-! ### The end-to-end demonstration scenario of the spec -/

/-- The empty coefficient map, the state before the resource has loaded. -/
def emptyCoefs : CoefMap := []

/-- The coefficient resource of the spec's end-to-end scenario, loaded
through `useCoefficients`. -/
def demoCoefs : CoefMap :=
  loadCoefficients
    [⟨"Intercept", "6.0"⟩, ⟨"age", "-0.01"⟩, ⟨"overall_rating", "0.05"⟩,
     ⟨"position_group_Midfielder", "0.1"⟩, ⟨"preferred_foot_Right", "0.02"⟩]

/-- The feature vector of the spec's end-to-end scenario. -/
def demoFeatures : Features :=
  { age := 24, rating := 85, pg := "Midfielder", foot := "Right" }

/-- The configuration of the source: `TARGET_IS_LOG = true`,
`USD_PER_EUR = 1.08`. -/
def demoConfig : Config :=
  { targetIsLog := true, currencyRate := 108 / 100 }

/-! ## Helper lemmas -/

theorem zero_of_empty_lookup (f : Features) : etaOf emptyCoefs f = 0 := by
  simp [etaOf, coefValue, emptyCoefs, lookupTerm, orZero]

theorem lookupTerm_setTerm_self (m : CoefMap) (k : String) (v : JSNum) :
    lookupTerm (setTerm m k v) k = some v := by
  induction m with
  | nil => simp [setTerm, lookupTerm]
  | cons p rest ih =>
      obtain ⟨t, w⟩ := p
      by_cases h : t = k
      · simp [setTerm, h, lookupTerm]
      · simp [setTerm, h, lookupTerm, ih]

theorem lookupTerm_setTerm_ne (m : CoefMap) (k t : String) (v : JSNum)
    (h : t ≠ k) : lookupTerm (setTerm m k v) t = lookupTerm m t := by
  induction m with
  | nil => simp [setTerm, lookupTerm, Ne.symm h]
  | cons p rest ih =>
      obtain ⟨u, w⟩ := p
      by_cases hu : u = k
      · subst hu
        simp [setTerm, lookupTerm, Ne.symm h, h]
      · simp [setTerm, hu, lookupTerm, ih]

theorem coefValue_setTerm_self (m : CoefMap) (k : String) (v : ℚ) :
    coefValue (setTerm m k (some v)) k = v := by
  simp [coefValue, lookupTerm_setTerm_self, orZero]

theorem coefValue_setTerm_ne (m : CoefMap) (k t : String) (v : JSNum)
    (h : t ≠ k) : coefValue (setTerm m k v) t = coefValue m t := by
  simp [coefValue, lookupTerm_setTerm_ne m k t v h]

theorem ne_of_length_ne {s t : String} (h : s.length ≠ t.length) : s ≠ t :=
  fun he => h (by rw [he])

theorem position_key_ne_age (pg : String) : ("position_group_" ++ pg) ≠ "age" := by
  apply ne_of_length_ne
  rw [String.length_append]
  have h1 : ("position_group_" : String).length = 15 := rfl
  have h2 : ("age" : String).length = 3 := rfl
  omega

theorem foot_key_ne_age (foot : String) : ("preferred_foot_" ++ foot) ≠ "age" := by
  apply ne_of_length_ne
  rw [String.length_append]
  have h1 : ("preferred_foot_" : String).length = 15 := rfl
  have h2 : ("age" : String).length = 3 := rfl
  omega

theorem position_key_ne_rating (pg : String) :
    ("position_group_" ++ pg) ≠ "overall_rating" := by
  apply ne_of_length_ne
  rw [String.length_append]
  have h1 : ("position_group_" : String).length = 15 := rfl
  have h2 : ("overall_rating" : String).length = 14 := rfl
  omega

theorem foot_key_ne_rating (foot : String) :
    ("preferred_foot_" ++ foot) ≠ "overall_rating" := by
  apply ne_of_length_ne
  rw [String.length_append]
  have h1 : ("preferred_foot_" : String).length = 15 := rfl
  have h2 : ("overall_rating" : String).length = 14 := rfl
  omega

theorem binIdx_lt (lo hi : ℚ) (n : ℕ) (hn : 0 < n) (x : ℚ) :
    binIdx lo hi n x < n := by
  unfold binIdx
  split
  · exact hn
  · have h := min_le_left (n - 1) (Int.toNat ⌊(x - lo) * n / (hi - lo)⌋)
    omega

theorem range_map_sum (g : ℕ → ℕ) (n : ℕ) :
    ((List.range n).map g).sum = ∑ i ∈ Finset.range n, g i := by
  induction n with
  | zero => simp
  | succ m ih => rw [List.range_succ]; simp [ih, Finset.sum_range_succ]

theorem sum_bin_counts (f : ℚ → ℕ) (n : ℕ) (xs : List ℚ)
    (h : ∀ x ∈ xs, f x < n) :
    (∑ i ∈ Finset.range n, (xs.filter (fun x => f x == i)).length) = xs.length := by
  induction xs with
  | nil => simp
  | cons a t ih =>
      have ht : ∀ x ∈ t, f x < n := fun x hx => h x (List.mem_cons_of_mem _ hx)
      have ha : f a < n := h a (List.mem_cons_self _ _)
      have key : ∀ i, ((a :: t).filter (fun x => f x == i)).length
          = (t.filter (fun x => f x == i)).length + (if f a = i then 1 else 0) := by
        intro i
        by_cases hfa : f a = i
        · simp [List.filter_cons, hfa]
        · simp [List.filter_cons, hfa]
      rw [Finset.sum_congr rfl (fun i _ => key i), Finset.sum_add_distrib, ih ht]
      have hone : (∑ i ∈ Finset.range n, if f a = i then 1 else 0) = 1 := by
        rw [Finset.sum_ite_eq]
        simp [Finset.mem_range.mpr ha]
      rw [hone]
      simp

theorem histogram_cons (n : ℕ) (a : ℚ) (t : List ℚ) :
    histogram n (a :: t) =
      (List.range n).map
        (fun i => (i, ((a :: t).filter
          (fun x => binIdx (listMin (a :: t)) (listMax (a :: t)) n x == i)).length)) :=
  rfl

theorem histogram_sum (n : ℕ) (hn : 0 < n) (xs : List ℚ) :
    ((histogram n xs).map Prod.snd).sum = xs.length := by
  cases xs with
  | nil => simp [histogram]
  | cons a t =>
      rw [histogram_cons, List.map_map]
      have hcomp :
          (Prod.snd ∘ fun i =>
            (i, ((a :: t).filter
              (fun x => binIdx (listMin (a :: t)) (listMax (a :: t)) n x == i)).length))
          = fun i => ((a :: t).filter
              (fun x => binIdx (listMin (a :: t)) (listMax (a :: t)) n x == i)).length :=
        rfl
      rw [hcomp, range_map_sum, sum_bin_counts _ n _
        (fun x _ => binIdx_lt (listMin (a :: t)) (listMax (a :: t)) n hn x)]

theorem exp013_lb : (2733187361 / 2400000000 : ℝ) ≤ Real.exp (13 / 100) := by
  have h := Real.sum_le_exp_of_nonneg (x := (13 / 100 : ℝ)) (by norm_num) 5
  have hs : (∑ i ∈ Finset.range 5, ((13 : ℝ) / 100) ^ i / i.factorial)
      = 2733187361 / 2400000000 := by
    rw [Finset.sum_range_succ, Finset.sum_range_succ, Finset.sum_range_succ,
      Finset.sum_range_succ, Finset.sum_range_succ, Finset.sum_range_zero]
    norm_num [Nat.factorial]
  rw [hs] at h
  exact h

theorem exp013_ub :
    Real.exp (13 / 100) ≤ 2733187361 / 2400000000 + 371293 / 10 ^ 12 := by
  have h := Real.exp_bound' (x := (13 / 100 : ℝ)) (by norm_num) (by norm_num)
    (n := 5) (by norm_num)
  have hs : (∑ i ∈ Finset.range 5, ((13 : ℝ) / 100) ^ i / i.factorial)
      = 2733187361 / 2400000000 := by
    rw [Finset.sum_range_succ, Finset.sum_range_succ, Finset.sum_range_succ,
      Finset.sum_range_succ, Finset.sum_range_succ, Finset.sum_range_zero]
    norm_num [Nat.factorial]
  rw [hs] at h
  norm_num [Nat.factorial] at h
  linarith

theorem exp_split :
    Real.exp (1013 / 100) = Real.exp 1 ^ 10 * Real.exp (13 / 100) := by
  rw [← Real.exp_nat_mul, ← Real.exp_add]
  norm_num

theorem demo_exp_lb :
    (2.7182818283 : ℝ) ^ 10 * (2733187361 / 2400000000) ≤ Real.exp (1013 / 100) := by
  rw [exp_split]
  have h10 : (2.7182818283 : ℝ) ^ 10 ≤ Real.exp 1 ^ 10 :=
    pow_le_pow_left₀ (by norm_num) Real.exp_one_gt_d9.le 10
  have hmul1 : (2.7182818283 : ℝ) ^ 10 * (2733187361 / 2400000000)
      ≤ Real.exp 1 ^ 10 * (2733187361 / 2400000000) :=
    mul_le_mul_of_nonneg_right h10 (by norm_num)
  have hmul2 : Real.exp 1 ^ 10 * (2733187361 / 2400000000 : ℝ)
      ≤ Real.exp 1 ^ 10 * Real.exp (13 / 100) :=
    mul_le_mul_of_nonneg_left exp013_lb (by positivity)
  linarith

theorem demo_exp_ub :
    Real.exp (1013 / 100)
      ≤ (2.7182818286 : ℝ) ^ 10 * (2733187361 / 2400000000 + 371293 / 10 ^ 12) := by
  rw [exp_split]
  have h10 : Real.exp 1 ^ 10 ≤ (2.7182818286 : ℝ) ^ 10 :=
    pow_le_pow_left₀ (Real.exp_pos 1).le Real.exp_one_lt_d9.le 10
  have hmul1 : Real.exp 1 ^ 10 * Real.exp (13 / 100)
      ≤ Real.exp 1 ^ 10 * (2733187361 / 2400000000 + 371293 / 10 ^ 12) :=
    mul_le_mul_of_nonneg_left exp013_ub (by positivity)
  have hmul2 : Real.exp 1 ^ 10 * (2733187361 / 2400000000 + 371293 / 10 ^ 12 : ℝ)
      ≤ (2.7182818286 : ℝ) ^ 10 * (2733187361 / 2400000000 + 371293 / 10 ^ 12) :=
    mul_le_mul_of_nonneg_right h10 (by norm_num)
  linarith

theorem demo_wage_lb : (25084 : ℝ) < Real.exp (1013 / 100) := by
  have h := demo_exp_lb
  have hn : (25084 : ℝ) < (2.7182818283 : ℝ) ^ 10 * (2733187361 / 2400000000) := by
    norm_num
  linarith

theorem demo_wage_ub : Real.exp (1013 / 100) < 25085 := by
  have h := demo_exp_ub
  have hn : ((2.7182818286 : ℝ) ^ 10 * (2733187361 / 2400000000 + 371293 / 10 ^ 12))
      < 25085 := by
    norm_num
  linarith

theorem demo_usd_lb : (27091 : ℝ) < Real.exp (1013 / 100) * (108 / 100) := by
  have h := demo_exp_lb
  have hn : (27091 : ℝ)
      < (2.7182818283 : ℝ) ^ 10 * (2733187361 / 2400000000) * (108 / 100) := by
    norm_num
  nlinarith

theorem demo_usd_ub : Real.exp (1013 / 100) * (108 / 100) < 27092 := by
  have h := demo_exp_ub
  have hn : ((2.7182818286 : ℝ) ^ 10 * (2733187361 / 2400000000 + 371293 / 10 ^ 12))
      * (108 / 100) < 27092 := by
    norm_num
  nlinarith

/-! ## The claims -/

/-- C1: for every CoefficientMap, FeatureVector and config, `predict`
returns `(if targetIsLog then exp(eta) else eta) * currencyRate`, where
`eta` is the linear combination of the intercept, the age and rating terms
and the two categorical level terms, every term absent from the map
contributing `0` instead of failing. -/
theorem C1_predict_formula (coefs : CoefMap) (f : Features) (cfg : Config) :
    predict coefs f cfg =
      (if cfg.targetIsLog
        then Real.exp ((coefValue coefs "Intercept"
          + coefValue coefs "age" * f.age
          + coefValue coefs "overall_rating" * f.rating
          + coefValue coefs ("position_group_" ++ f.pg)
          + coefValue coefs ("preferred_foot_" ++ f.foot) : ℚ))
        else ((coefValue coefs "Intercept"
          + coefValue coefs "age" * f.age
          + coefValue coefs "overall_rating" * f.rating
          + coefValue coefs ("position_group_" ++ f.pg)
          + coefValue coefs ("preferred_foot_" ++ f.foot) : ℚ) : ℝ))
        * (cfg.currencyRate : ℝ) := by
  have h : etaOf coefs f
      = coefValue coefs "Intercept"
        + coefValue coefs "age" * f.age
        + coefValue coefs "overall_rating" * f.rating
        + coefValue coefs ("position_group_" ++ f.pg)
        + coefValue coefs ("preferred_foot_" ++ f.foot) := by
    unfold etaOf; ring
  unfold predict wageEurOf
  rw [h]

/-- C2: `deriveGroup` evaluates the ordered substring rules with the first
match winning — GK gives Goalkeeper, else any defender code gives Defender,
else any midfielder code gives Midfielder, else Forward — and in particular
the four sample strings of the spec resolve as stated. -/
theorem C2_deriveGroup_rules :
    (∀ s : String,
      (containsStr s "GK" = true → deriveGroup s = .Goalkeeper) ∧
      (containsStr s "GK" = false →
        (containsStr s "CB" || containsStr s "LB" || containsStr s "RB"
          || containsStr s "RWB" || containsStr s "LWB") = true →
        deriveGroup s = .Defender) ∧
      (containsStr s "GK" = false →
        (containsStr s "CB" || containsStr s "LB" || containsStr s "RB"
          || containsStr s "RWB" || containsStr s "LWB") = false →
        (containsStr s "CM" || containsStr s "CDM" || containsStr s "CAM"
          || containsStr s "RM" || containsStr s "LM" || containsStr s "RW"
          || containsStr s "LW") = true →
        deriveGroup s = .Midfielder) ∧
      (containsStr s "GK" = false →
        (containsStr s "CB" || containsStr s "LB" || containsStr s "RB"
          || containsStr s "RWB" || containsStr s "LWB") = false →
        (containsStr s "CM" || containsStr s "CDM" || containsStr s "CAM"
          || containsStr s "RM" || containsStr s "LM" || containsStr s "RW"
          || containsStr s "LW") = false →
        deriveGroup s = .Forward)) ∧
    deriveGroup "GK" = .Goalkeeper ∧
    deriveGroup "LB, LM" = .Defender ∧
    deriveGroup "ST" = .Forward ∧
    deriveGroup "CAM, RW" = .Midfielder := by
  refine ⟨fun s => ⟨?_, ?_, ?_, ?_⟩, by decide, by decide, by decide, by decide⟩
  · intro h1
    simp [deriveGroup, h1]
  · intro h1 h2
    simp [deriveGroup, h1, h2]
  · intro h1 h2 h3
    simp [deriveGroup, h1, h2, h3]
  · intro h1 h2 h3
    simp [deriveGroup, h1, h2, h3]

/-- Witness for C2 at the precedence example: "LB, LM" contains no "GK",
contains a defender code, and resolves to Defender. -/
theorem C2_witness : deriveGroup "LB, LM" = DerivedGroup.Defender :=
  (C2_deriveGroup_rules.1 "LB, LM").2.1 (by decide) (by decide)

/-- C5: with the empty CoefficientMap every term contributes 0, so for
every FeatureVector the prediction is `exp(0) * currencyRate` under the log
link and `0 * currencyRate` otherwise — a constant independent of the
features. -/
theorem C5_empty_map_baseline (f : Features) (cfg : Config) :
    predict emptyCoefs f cfg
        = (if cfg.targetIsLog then Real.exp 0 else 0) * (cfg.currencyRate : ℝ) ∧
    (∀ g : Features, predict emptyCoefs f cfg = predict emptyCoefs g cfg) := by
  have key : ∀ h : Features, predict emptyCoefs h cfg
      = (if cfg.targetIsLog then Real.exp 0 else 0) * (cfg.currencyRate : ℝ) := by
    intro h
    unfold predict wageEurOf
    rw [zero_of_empty_lookup h]
    norm_num
  exact ⟨key f, fun g => (key f).trans (key g).symm⟩

/-- C9: `predict` is linear in each numeric feature — scaling the `age`
(resp. `overall_rating`) coefficient by a nonzero `k` while dividing the
feature by `k` leaves η, and hence the prediction, unchanged. -/
theorem C9_scaling_invariance (coefs : CoefMap) (f : Features) (k : ℚ)
    (hk : k ≠ 0) :
    etaOf (setTerm coefs "age" (some (k * coefValue coefs "age")))
        { f with age := f.age / k } = etaOf coefs f ∧
    etaOf (setTerm coefs "overall_rating"
          (some (k * coefValue coefs "overall_rating")))
        { f with rating := f.rating / k } = etaOf coefs f ∧
    (∀ cfg : Config,
      predict (setTerm coefs "age" (some (k * coefValue coefs "age")))
        { f with age := f.age / k } cfg = predict coefs f cfg) := by
  have hage : etaOf (setTerm coefs "age" (some (k * coefValue coefs "age")))
      { f with age := f.age / k } = etaOf coefs f := by
    unfold etaOf
    rw [coefValue_setTerm_self, coefValue_setTerm_ne _ _ _ _ (by decide),
      coefValue_setTerm_ne _ _ _ _ (by decide),
      coefValue_setTerm_ne _ _ _ _ (position_key_ne_age f.pg),
      coefValue_setTerm_ne _ _ _ _ (foot_key_ne_age f.foot)]
    field_simp
    ring
  have hrat : etaOf (setTerm coefs "overall_rating"
        (some (k * coefValue coefs "overall_rating")))
      { f with rating := f.rating / k } = etaOf coefs f := by
    unfold etaOf
    rw [coefValue_setTerm_self, coefValue_setTerm_ne _ _ _ _ (by decide),
      coefValue_setTerm_ne _ _ _ _ (by decide),
      coefValue_setTerm_ne _ _ _ _ (position_key_ne_rating f.pg),
      coefValue_setTerm_ne _ _ _ _ (foot_key_ne_rating f.foot)]
    field_simp
    ring
  refine ⟨hage, hrat, fun cfg => ?_⟩
  unfold predict wageEurOf
  rw [hage]

/-- Witness for C9 at `k = 2` on a concrete one-term map. -/
theorem C9_witness :
    etaOf (setTerm [("age", (some 3 : JSNum))] "age"
        (some (2 * coefValue [("age", (some 3 : JSNum))] "age")))
      { age := 10 / 2, rating := 50, pg := "Forward", foot := "Left" }
      = etaOf [("age", (some 3 : JSNum))]
        { age := 10, rating := 50, pg := "Forward", foot := "Left" } :=
  (C9_scaling_invariance [("age", (some 3 : JSNum))]
    { age := 10, rating := 50, pg := "Forward", foot := "Left" } 2 (by decide)).1

/-- C6: after the filter stage of the histogram transform, every surviving
record has `group` equal to the selected filter when that filter is not the
sentinel `"All"`, and with `"All"` every record of the input dataset is
kept. -/
theorem C6_filter_property (rows : List Row) (posFilter : String) :
    (posFilter ≠ "All" →
      ∀ r ∈ runTransform (wageHistTransform posFilter) rows,
        r.group = posFilter) ∧
    (posFilter = "All" →
      (runTransform (wageHistTransform posFilter) rows).length = rows.length) := by
  constructor
  · intro hne r hr
    have hmem : r ∈ (runStage (.rescaleStage usdPerEur)
        (runStage .deriveStage rows)).filter (keepRow posFilter) := hr
    have hkeep := (List.mem_filter.mp hmem).2
    simpa [keepRow, hne] using hkeep
  · intro hall
    subst hall
    show ((runStage (.rescaleStage usdPerEur)
        (runStage .deriveStage rows)).filter (keepRow "All")).length = rows.length
    have hfilter : ∀ l : List Row, l.filter (keepRow "All") = l := by
      intro l
      apply List.filter_eq_self.mpr
      intro r _
      simp [keepRow]
    rw [hfilter]
    simp [runStage]

/-- Witness for C6: a two-record dataset filtered to "Goalkeeper" keeps
only goalkeeper rows, and the sentinel "All" keeps both records. -/
theorem C6_witness :
    (∀ r ∈ runTransform (wageHistTransform "Goalkeeper")
        [initRow "GK" 1000, initRow "ST" 500], r.group = "Goalkeeper") ∧
    (runTransform (wageHistTransform "All")
        [initRow "GK" 1000, initRow "ST" 500]).length = 2 :=
  ⟨(C6_filter_property [initRow "GK" 1000, initRow "ST" 500] "Goalkeeper").1
      (by decide),
   (C6_filter_property [initRow "GK" 1000, initRow "ST" 500] "All").2 rfl⟩

/-- C7: the sum of the per-bin counts of the histogram series equals the
number of records that survived the filter stage, and an empty post-filter
input yields an empty series rather than an error. -/
theorem C7_histogram_counts (rows : List Row) (posFilter : String) :
    ((wageHistSeries posFilter rows).map Prod.snd).sum
        = (runTransform (wageHistTransform posFilter) rows).length ∧
    (runTransform (wageHistTransform posFilter) rows = [] →
      wageHistSeries posFilter rows = []) := by
  constructor
  · unfold wageHistSeries
    rw [histogram_sum 30 (by norm_num)]
    exact List.length_map _ _
  · intro hempty
    unfold wageHistSeries
    rw [hempty]
    rfl

/-- Witness for C7: the one-goalkeeper scenario has bin counts summing to
one survivor, and an empty filtered input yields the empty series. -/
theorem C7_witness :
    ((wageHistSeries "Goalkeeper" [initRow "GK" 1000]).map Prod.snd).sum = 1 ∧
    wageHistSeries "Defender" [] = [] := by
  constructor
  · rw [(C7_histogram_counts [initRow "GK" 1000] "Goalkeeper").1]
    with_unfolding_all rfl
  · exact (C7_histogram_counts [] "Defender").2 rfl

/-- The currency formatter never produces the unavailable marker: its
output starts with a dollar or minus sign. -/
theorem toLocaleUSD_ne_dash (q : ℚ) : toLocaleUSD q ≠ "—" := by
  intro h
  have hd : (toLocaleUSD q).data = "—".data := congrArg String.data h
  unfold toLocaleUSD at hd
  by_cases hr : roundHalfExpand q < 0
  · rw [if_pos hr] at hd
    have h2 : ("-$" ++ String.mk ((groupRev
        (natDigits (roundHalfExpand q).natAbs).reverse).reverse)).data
        = '-' :: '$' :: ((groupRev
          (natDigits (roundHalfExpand q).natAbs).reverse).reverse) := rfl
    rw [h2] at hd
    have : ('-' : Char) = '—' := by
      have := List.head_eq_of_cons_eq hd
      exact this
    exact absurd this (by decide)
  · rw [if_neg hr] at hd
    have h2 : ("$" ++ String.mk ((groupRev
        (natDigits (roundHalfExpand q).natAbs).reverse).reverse)).data
        = '$' :: ((groupRev
          (natDigits (roundHalfExpand q).natAbs).reverse).reverse) := rfl
    rw [h2] at hd
    have : ('$' : Char) = '—' := by
      have := List.head_eq_of_cons_eq hd
      exact this
    exact absurd this (by decide)

/-- C8: the display formatter returns the explicit unavailable marker "—"
for every non-finite value instead of throwing, and returns a currency
string (never the marker) for every finite value.  The embedded predictor
and formatter are total Lean functions, so no input can make them throw. -/
theorem C8_format_nonfinite (x : JSFloat) :
    (isFiniteJS x = false → fmtUSD x = "—") ∧
    (∀ q : ℚ, x = .finite q →
      fmtUSD x = toLocaleUSD q ∧ fmtUSD x ≠ "—") := by
  constructor
  · intro h
    cases x with
    | finite q => simp [isFiniteJS] at h
    | posInf => rfl
    | negInf => rfl
    | nan => rfl
  · intro q hq
    subst hq
    exact ⟨rfl, toLocaleUSD_ne_dash q⟩

/-- Witness for C8: `NaN` formats as the marker, and a finite value formats
as a currency string distinct from the marker. -/
theorem C8_witness :
    fmtUSD JSFloat.nan = "—" ∧
    fmtUSD (JSFloat.finite 27091) = toLocaleUSD 27091 ∧
    fmtUSD (JSFloat.finite 27091) ≠ "—" :=
  ⟨(C8_format_nonfinite JSFloat.nan).1 rfl,
   (C8_format_nonfinite (JSFloat.finite 27091)).2 27091 rfl⟩

/-- C10: the box-summary series is independent of the selected position
filter: the transform array that `boxSpec` builds consists of the derive
and rescale stages only and contains no filter stage, so any two filter
selections give identical box-summary output; the filter appears only in
the histogram transform. -/
theorem C10_box_independent_of_filter (rows : List Row) (pf pf' : String) :
    boxSeries pf rows = boxSeries pf' rows ∧
    boxTransform pf = [.deriveStage, .rescaleStage usdPerEur] ∧
    (∀ q : String, TransformStage.filterStage q ∉ boxTransform pf) ∧
    (∀ q : String, TransformStage.filterStage q ∈ wageHistTransform q) := by
  refine ⟨rfl, rfl, ?_, ?_⟩
  · intro q hq
    simp [boxTransform] at hq
  · intro q
    simp [wageHistTransform]

/-- Witness for C10 at concrete filters and a concrete dataset. -/
theorem C10_witness :
    boxSeries "Defender" [initRow "GK" 1000, initRow "ST" 500]
      = boxSeries "All" [initRow "GK" 1000, initRow "ST" 500] :=
  (C10_box_independent_of_filter [initRow "GK" 1000, initRow "ST" 500]
    "Defender" "All").1

/-- C3 counterexample: loading a record whose term is present but whose
estimate string "abc" is unparseable surfaces no condition at all — the
loader returns an ordinary map that silently stores `NaN` (`none`) for the
term, and the `|| 0` guard then makes that present term contribute 0, just
like an absent one.  This contradicts the claim that such a load surfaces a
MalformedCoefficient condition rather than coercing to `NaN`. -/
theorem C3_counterexample :
    loadCoefficients [⟨"age", "abc"⟩] = ([("age", (none : Option ℚ))] : CoefMap) ∧
    lookupTerm (loadCoefficients [⟨"age", "abc"⟩]) "age" = some (none : Option ℚ) ∧
    coefValue (loadCoefficients [⟨"age", "abc"⟩]) "age" = 0 := by
  refine ⟨?_, ?_, ?_⟩ <;> with_unfolding_all rfl

/-- C3 amended: when a record's estimate is present but unparseable — its
JS `ToNumber` value is `NaN` — the loader silently coerces it to `NaN` (no
MalformedCoefficient condition exists in the code) and the predictor's
`|| 0` guard makes the term contribute 0, so both absent terms and
present-but-unparseable terms contribute 0. -/
theorem C3_silent_nan_coercion (t est : String)
    (h : jsStrToNumber est = ToNumberResult.nan) :
    loadCoefficients [⟨t, est⟩] = ([(t, (none : Option ℚ))] : CoefMap) ∧
    coefValue (loadCoefficients [⟨t, est⟩]) t = 0 := by
  have hj : jsToNumber est = none := by
    unfold jsToNumber
    rw [h]
  constructor
  · show setTerm [] t (jsToNumber est) = _
    rw [hj]
    rfl
  · show orZero (lookupTerm (setTerm [] t (jsToNumber est)) t) = 0
    rw [hj]
    simp [setTerm, lookupTerm, orZero]

/-- Witness for C3 amended at a concrete unparseable estimate. -/
theorem C3_witness :
    loadCoefficients [⟨"rating", "x1"⟩]
        = ([("rating", (none : Option ℚ))] : CoefMap) ∧
    coefValue (loadCoefficients [⟨"rating", "x1"⟩]) "rating" = 0 :=
  C3_silent_nan_coercion "rating" "x1" (by with_unfolding_all rfl)

/-- C4 counterexample: in the spec's end-to-end scenario η is indeed 10.13,
but `exp(10.13)` lies strictly between 25084 and 25085 — not approximately
24989 — and the USD prediction lies strictly between 27091 and 27092 — not
approximately 26988.  The claimed wage is off by more than 90 EUR and the
claimed prediction by more than 100 USD. -/
theorem C4_counterexample :
    etaOf demoCoefs demoFeatures = 1013 / 100 ∧
    (25084 : ℝ) < wageEurOf demoCoefs demoFeatures demoConfig ∧
    ¬ |wageEurOf demoCoefs demoFeatures demoConfig - 24989| ≤ 90 ∧
    (27091 : ℝ) < predict demoCoefs demoFeatures demoConfig ∧
    ¬ |predict demoCoefs demoFeatures demoConfig - 26988| ≤ 100 := by
  have heta : etaOf demoCoefs demoFeatures = 1013 / 100 := by
    with_unfolding_all rfl
  have hwage : wageEurOf demoCoefs demoFeatures demoConfig
      = Real.exp (1013 / 100) := by
    unfold wageEurOf
    rw [heta]
    norm_num [demoConfig]
  have husd : predict demoCoefs demoFeatures demoConfig
      = Real.exp (1013 / 100) * (108 / 100) := by
    unfold predict
    rw [hwage]
    norm_num [demoConfig]
  refine ⟨heta, ?_, ?_, ?_, ?_⟩
  · rw [hwage]; exact demo_wage_lb
  · rw [hwage]
    have := demo_wage_lb
    intro habs
    have := abs_le.mp habs
    linarith
  · rw [husd]; exact demo_usd_lb
  · rw [husd]
    have := demo_usd_lb
    intro habs
    have := abs_le.mp habs
    linarith

/-- C4 amended: in the end-to-end scenario η = 10.13 exactly, the euro wage
`exp(10.13)` is approximately 25084 (strictly between 25084 and 25085), and
the USD prediction is approximately 27091 (strictly between 27091 and
27092). -/
theorem C4_end_to_end_scenario :
    etaOf demoCoefs demoFeatures = 1013 / 100 ∧
    (25084 : ℝ) < wageEurOf demoCoefs demoFeatures demoConfig ∧
    wageEurOf demoCoefs demoFeatures demoConfig < 25085 ∧
    (27091 : ℝ) < predict demoCoefs demoFeatures demoConfig ∧
    predict demoCoefs demoFeatures demoConfig < 27092 := by
  have heta : etaOf demoCoefs demoFeatures = 1013 / 100 := by
    with_unfolding_all rfl
  have hwage : wageEurOf demoCoefs demoFeatures demoConfig
      = Real.exp (1013 / 100) := by
    unfold wageEurOf
    rw [heta]
    norm_num [demoConfig]
  have husd : predict demoCoefs demoFeatures demoConfig
      = Real.exp (1013 / 100) * (108 / 100) := by
    unfold predict
    rw [hwage]
    norm_num [demoConfig]
  exact ⟨heta, hwage ▸ demo_wage_lb, hwage ▸ demo_wage_ub,
    husd ▸ demo_usd_lb, husd ▸ demo_usd_ub⟩

end FifaWage
